import Mathlib

/-!
Verification of the partitioned ingestion writer of the stock-analyser
pipeline (`src/main.py`), as a shallow embedding in Lean.

The embedding mirrors the source faithfully:
* `formatDate` models `strftime('%Y-%m-%d')` (zero-padded digits);
* `localPath` models the path built by `save_data_locally`
  (`os.path.join("stock_data_lake", "ticker=T", "date=D.csv")`);
* `gcsKey` models the blob key built by `upload_data_to_gcs`;
* `Store` models the written artifacts of a backend as a keyed list with
  overwrite-on-existing-key semantics (`writeStore`), shared by both the
  local filesystem and the object store (both `df.to_csv(path)` and
  `blob.upload_from_string` overwrite the artifact at the key);
* `serializeRow` models `day_df.to_csv(index=False)` after `reset_index`
  and the addition of the `Ticker` column: one header line and one data
  line per partition file;
* `fetchAndStoreData` models `fetch_and_store_data`, with the external
  `yf.download` call supplied as an `Except`-valued input, write failures
  (IO exceptions) supplied as a `wOk : Nat → Bool` oracle per row index,
  and the observable side effects (prints, the single fetch call, each
  successful write) collected in an event trace.  The single `try/except`
  of the source wraps both the fetch and the whole per-row loop, so a
  raised write exception aborts the loop and yields `none`;
* `mainRun` models `main`: the empty-ticker check, then the placeholder
  bucket-name check, then bucket acquisition, then ingestion.  The
  downstream processing step (plotting / printed instructions) is out of
  scope of the specified subsystem and elided.
-/

/-- A calendar date, as handled by `datetime` / `strftime`. -/
structure CalendarDate where
  year : Nat
  month : Nat
  day : Nat
deriving DecidableEq, Repr

/-- Validity bounds of a calendar date (Python `datetime` years are
1..9999; months 1..12, days 1..31). -/
def CalendarDate.valid (d : CalendarDate) : Prop :=
  d.year ≤ 9999 ∧ 1 ≤ d.month ∧ d.month ≤ 12 ∧ 1 ≤ d.day ∧ d.day ≤ 31

instance (d : CalendarDate) : Decidable d.valid := by
  unfold CalendarDate.valid; infer_instance

/-- The ASCII digit character for a digit value. -/
def digitChar (n : Nat) : Char := Char.ofNat (48 + n)

/-- Two-digit zero-padded rendering, as `strftime` `%m` / `%d`. -/
def pad2 (n : Nat) : String := String.mk [digitChar (n / 10), digitChar (n % 10)]

/-- Four-digit zero-padded rendering, as `strftime` `%Y` for years up to 9999. -/
def pad4 (n : Nat) : String :=
  String.mk [digitChar (n / 1000), digitChar (n / 100 % 10),
             digitChar (n / 10 % 10), digitChar (n % 10)]

/-- `strftime('%Y-%m-%d')` of `src/main.py` line 106. -/
def formatDate (d : CalendarDate) : String :=
  pad4 d.year ++ "-" ++ pad2 d.month ++ "-" ++ pad2 d.day

/-- Root folder constant `LOCAL_DATA_LAKE_FOLDER` of `src/main.py`. -/
def LOCAL_DATA_LAKE_FOLDER : String := "stock_data_lake"

/-- The placeholder bucket name documented in `src/main.py` line 23. -/
def PLACEHOLDER_BUCKET : String := "your-gcs-bucket-name"

/-- The partitioned local file path of `save_data_locally`:
`os.path.join(LOCAL_DATA_LAKE_FOLDER, "ticker=T", "date=D.csv")`. -/
def localPath (ticker fileDate : String) : String :=
  LOCAL_DATA_LAKE_FOLDER ++ "/" ++ ("ticker=" ++ ticker) ++ "/" ++
    ("date=" ++ fileDate ++ ".csv")

/-- The flat object key of `upload_data_to_gcs`: `ticker=T/date=D.csv`. -/
def gcsKey (ticker fileDate : String) : String :=
  "ticker=" ++ ticker ++ "/date=" ++ fileDate ++ ".csv"

/-- One trading day's record. Prices are modelled as integers (their
arithmetic is never used by the ingestion writer — they are pass-through
values that are only ever serialized). -/
structure PriceRow where
  date : CalendarDate
  open_ : Int
  high : Int
  low : Int
  close : Int
  volume : Nat
deriving DecidableEq, Repr

/-- Header line of `day_df.to_csv(index=False)`: the reset index becomes a
`Date` column and `day_df['Ticker'] = ticker` appends a `Ticker` column. -/
def csvHeader : String := "Date,Open,High,Low,Close,Volume,Ticker"

/-- The single data line of a partition file. -/
def csvDataRow (r : PriceRow) (ticker : String) : String :=
  formatDate r.date ++ "," ++ toString r.open_ ++ "," ++ toString r.high ++ "," ++
    toString r.low ++ "," ++ toString r.close ++ "," ++ toString r.volume ++ "," ++ ticker

/-- The lines of a serialized one-row partition. -/
def serializeRowLines (r : PriceRow) (ticker : String) : List String :=
  [csvHeader, csvDataRow r ticker]

/-- The full serialized content of a one-row partition
(`day_df.to_csv(index=False)`). -/
def serializeRow (r : PriceRow) (ticker : String) : String :=
  csvHeader ++ "\n" ++ csvDataRow r ticker ++ "\n"

/-- A storage backend's durable state: a keyed list of artifacts
(path or object key, content). -/
abbrev Store := List (String × String)

/-- A durable write: overwrites the artifact at the key if it exists
(last-write-wins, as `df.to_csv(path)` and `blob.upload_from_string` do),
otherwise creates a new artifact. -/
def writeStore : Store → String → String → Store
  | [], k, v => [(k, v)]
  | p :: σ, k, v => if p.1 = k then (k, v) :: σ else p :: writeStore σ k v

/-- Content of the artifact at a key, if any. -/
def lookupStore : Store → String → Option String
  | [], _ => none
  | p :: σ, k => if p.1 = k then some p.2 else lookupStore σ k

/-- Number of artifacts at a key. -/
def countKey (σ : Store) (k : String) : Nat :=
  (σ.filter (fun p => decide (p.1 = k))).length

/-- A well-formed store holds at most one artifact per key (true of a
filesystem and of an object store). -/
def wfStore (σ : Store) : Prop := (σ.map Prod.fst).Nodup

/-- The key a given backend writes for a (ticker, date) pair. -/
def dateKey (tgt ticker : String) (d : CalendarDate) : String :=
  if tgt = "local" then localPath ticker (formatDate d) else gcsKey ticker (formatDate d)

/-- The key a given backend writes for a row. -/
def rowKey (tgt ticker : String) (r : PriceRow) : String := dateKey tgt ticker r.date

/-- Observable side effects of a run: the (single) data-source call, each
successful partition write, and each console message. -/
inductive Event where
  | fetchEv (ticker period : String)
  | writeEv (key : String)
  | printEv (msg : String)
deriving DecidableEq, Repr

def isWriteEv : Event → Bool
  | Event.writeEv _ => true
  | _ => false

def isFetchEv : Event → Bool
  | Event.fetchEv _ _ => true
  | _ => false

def countWriteEv (tr : List Event) : Nat := (tr.filter isWriteEv).length

def countFetchEv (tr : List Event) : Nat := (tr.filter isFetchEv).length

/-- A single-quote character, used inside console messages. -/
def quoteStr : String := Char.toString (Char.ofNat 39)

def ingestHeaderMsg (ticker tgt : String) : String :=
  "[1] Fetching data for " ++ quoteStr ++ ticker ++ quoteStr ++ " | Target: " ++ tgt.toUpper

def noDataMsg (ticker : String) : String :=
  "ERROR: No data found for " ++ quoteStr ++ ticker ++ quoteStr ++ ". Please check the symbol."

def fetchedMsg (n : Nat) : String := "-> Fetched " ++ toString n ++ " data points."

def completeMsg : String := "-> Data ingestion complete."

def fetchErrMsg (e : String) : String := "An error occurred during data fetch: " ++ e

def noTickerMsg : String := "No ticker provided. Exiting."

def placeholderErrMsg : String :=
  "ERROR: Please update the GCS_BUCKET_NAME in the script before using GCP."

def bucketFatalMsg : String := "FATAL: Could not initialize GCS client."

/-- Whether the per-row branch of `fetch_and_store_data` performs a write:
`storage_target == 'local'`, or `storage_target == 'gcp' and gcs_bucket`. -/
def doesWrite (tgt : String) (hb : Bool) : Bool :=
  decide (tgt = "local") || (decide (tgt = "gcp") && hb)

/-- One iteration of the per-row loop of `fetch_and_store_data` (lines
102-110): build the one-row frame, then either `save_data_locally`, or
`upload_data_to_gcs` when the target is gcp and a bucket handle exists,
or nothing.  `ok = false` means the attempted write raises an IO
exception, modelled as `none` (the exception propagates to the caller's
`except` block). -/
def writeRowStep (tgt : String) (hb : Bool) (ok : Bool) (ticker : String)
    (r : PriceRow) (σ : Store) : Option (Store × List Event) :=
  if tgt = "local" then
    if ok then
      some (writeStore σ (localPath ticker (formatDate r.date)) (serializeRow r ticker),
            [Event.writeEv (localPath ticker (formatDate r.date))])
    else none
  else if tgt = "gcp" ∧ hb = true then
    if ok then
      some (writeStore σ (gcsKey ticker (formatDate r.date)) (serializeRow r ticker),
            [Event.writeEv (gcsKey ticker (formatDate r.date))])
    else none
  else some (σ, [])

/-- The per-row loop of `fetch_and_store_data`.  Returns the store after
the performed writes, the emitted events, and whether the loop ran to
completion (`false` means a write raised and the loop was abandoned). -/
def ingestLoop (tgt : String) (hb : Bool) (wOk : Nat → Bool) (ticker : String) :
    List PriceRow → Nat → Store → Store × List Event × Bool
  | [], _, σ => (σ, [], true)
  | r :: rs, i, σ =>
    match writeRowStep tgt hb (wOk i) ticker r σ with
    | none => (σ, [], false)
    | some (σ', evs) =>
      match ingestLoop tgt hb wOk ticker rs (i + 1) σ' with
      | (σ'', evs', done) => (σ'', evs ++ evs', done)

/-- `fetch_and_store_data` (lines 92-116).  `fetchResult` is the outcome of
the single `yf.download` call; `wOk i` tells whether the write attempted
for row `i` succeeds.  Returns the value returned to the caller, the final
store, and the event trace.  The source's one `try/except` covers the
fetch and the whole loop: any raised exception is caught, a message
printed, and `None` returned. -/
def fetchAndStoreData (ticker period tgt : String) (hb : Bool)
    (fetchResult : Except String (List PriceRow)) (wOk : Nat → Bool) (σ : Store) :
    Option (List PriceRow) × Store × List Event :=
  let ev0 : List Event :=
    [Event.printEv (ingestHeaderMsg ticker tgt), Event.fetchEv ticker period]
  match fetchResult with
  | Except.error e => (none, σ, ev0 ++ [Event.printEv (fetchErrMsg e)])
  | Except.ok rows =>
    if rows.isEmpty then
      (none, σ, ev0 ++ [Event.printEv (noDataMsg ticker)])
    else
      match ingestLoop tgt hb wOk ticker rows 0 σ with
      | (σ', evs, true) =>
        (some rows, σ',
         ev0 ++ [Event.printEv (fetchedMsg rows.length)] ++ evs ++ [Event.printEv completeMsg])
      | (σ', evs, false) =>
        (none, σ',
         ev0 ++ [Event.printEv (fetchedMsg rows.length)] ++ evs ++
           [Event.printEv (fetchErrMsg "write failure")])

/-- `main` (lines 162-184), up to and including the ingestion call: the
empty-ticker guard, the placeholder-bucket guard, bucket acquisition
(`bucketOk` tells whether `get_gcs_bucket` succeeds), then
`fetch_and_store_data`.  The downstream processing branch is out of the
specified subsystem's scope and elided. -/
def mainRun (storageTarget processingTarget ticker period bucketName : String)
    (bucketOk : Bool) (fetchResult : Except String (List PriceRow))
    (wOk : Nat → Bool) (σ : Store) : Option (List PriceRow) × Store × List Event :=
  if ticker = "" then (none, σ, [Event.printEv noTickerMsg])
  else if storageTarget = "gcp" ∧ bucketName = PLACEHOLDER_BUCKET then
    (none, σ, [Event.printEv placeholderErrMsg])
  else
    let hasBucket : Bool := if storageTarget = "gcp" then bucketOk else false
    if storageTarget = "gcp" ∧ hasBucket = false then
      (none, σ, [Event.printEv bucketFatalMsg])
    else
      fetchAndStoreData ticker period storageTarget hasBucket fetchResult wOk σ

/-- Example date used by witnesses. -/
def exDate1 : CalendarDate := ⟨2024, 1, 1⟩

/-- Example date used by witnesses. -/
def exDate2 : CalendarDate := ⟨2024, 1, 2⟩

/-- Example row used by witnesses. -/
def exRow1 : PriceRow := ⟨exDate1, 100, 110, 90, 105, 1000⟩

/-- Example row used by witnesses. -/
def exRow2 : PriceRow := ⟨exDate2, 105, 115, 95, 108, 1200⟩

-- ===========================================================================
-- Theorems
-- ===========================================================================

-- Basic string plumbing ----------------------------------------------------

theorem strData_append (a b : String) : (a ++ b).data = a.data ++ b.data :=
  String.data_append a b

theorem strExt {a b : String} (h : a.data = b.data) : a = b := by
  cases a; cases b; simp_all

theorem strAppend_assoc (a b c : String) : a ++ b ++ c = a ++ (b ++ c) := by
  apply strExt; simp [strData_append]

-- Injectivity of the date formatting ---------------------------------------

theorem digitChar_inj : ∀ a, a < 10 → ∀ b, b < 10 →
    digitChar a = digitChar b → a = b := by decide

theorem formatDate_data (d : CalendarDate) :
    (formatDate d).data =
      [digitChar (d.year / 1000), digitChar (d.year / 100 % 10),
       digitChar (d.year / 10 % 10), digitChar (d.year % 10), '-',
       digitChar (d.month / 10), digitChar (d.month % 10), '-',
       digitChar (d.day / 10), digitChar (d.day % 10)] := by
  simp [formatDate, pad4, pad2, strData_append]

theorem formatDate_length (d : CalendarDate) : (formatDate d).data.length = 10 := by
  simp [formatDate_data]

theorem formatDate_inj {d1 d2 : CalendarDate}
    (h1 : d1.valid) (h2 : d2.valid)
    (h : formatDate d1 = formatDate d2) : d1 = d2 := by
  obtain ⟨hy1, hm1a, hm1b, hd1a, hd1b⟩ := h1
  obtain ⟨hy2, hm2a, hm2b, hd2a, hd2b⟩ := h2
  have hdat := congrArg String.data h
  rw [formatDate_data, formatDate_data] at hdat
  simp only [List.cons.injEq, and_true, eq_self_iff_true, true_and] at hdat
  obtain ⟨e1, e2, e3, e4, e5, e6, e7, e8⟩ := hdat
  have y1 := digitChar_inj _ (by omega) _ (by omega) e1
  have y2 := digitChar_inj _ (by omega) _ (by omega) e2
  have y3 := digitChar_inj _ (by omega) _ (by omega) e3
  have y4 := digitChar_inj _ (by omega) _ (by omega) e4
  have m1 := digitChar_inj _ (by omega) _ (by omega) e5
  have m2 := digitChar_inj _ (by omega) _ (by omega) e6
  have n1 := digitChar_inj _ (by omega) _ (by omega) e7
  have n2 := digitChar_inj _ (by omega) _ (by omega) e8
  cases d1; cases d2
  simp_all only [CalendarDate.mk.injEq]
  omega

-- Injectivity of the partition keys ----------------------------------------

theorem gcsKey_inj {t1 t2 fd1 fd2 : String}
    (hl1 : fd1.data.length = 10) (hl2 : fd2.data.length = 10)
    (h : gcsKey t1 fd1 = gcsKey t2 fd2) : t1 = t2 ∧ fd1 = fd2 := by
  have hdat := congrArg String.data h
  simp only [gcsKey, strData_append, List.append_assoc] at hdat
  have h1 := List.append_cancel_left hdat
  have h2 := List.append_inj' h1 (by simp [List.length_append, hl1, hl2])
  obtain ⟨ht, hrest⟩ := h2
  have h3 := List.append_cancel_left hrest
  have h4 := List.append_cancel_right h3
  exact ⟨strExt ht, strExt h4⟩

theorem localPath_eq_folder_gcsKey (t fd : String) :
    localPath t fd = LOCAL_DATA_LAKE_FOLDER ++ "/" ++ gcsKey t fd := by
  apply strExt
  simp [localPath, gcsKey, strData_append, List.append_assoc]

theorem localPath_inj {t1 t2 fd1 fd2 : String}
    (hl1 : fd1.data.length = 10) (hl2 : fd2.data.length = 10)
    (h : localPath t1 fd1 = localPath t2 fd2) : t1 = t2 ∧ fd1 = fd2 := by
  rw [localPath_eq_folder_gcsKey, localPath_eq_folder_gcsKey] at h
  have hdat := congrArg String.data h
  simp only [strData_append, List.append_assoc] at hdat
  have h1 := List.append_cancel_left hdat
  have h2 := List.append_cancel_left h1
  exact gcsKey_inj hl1 hl2 (strExt h2)

/-- Claim C4: for valid inputs (non-empty ticker, valid calendar date), the
partition-key construction of `save_data_locally` and `upload_data_to_gcs`
is deterministic (equal inputs give equal keys) and injective (no two
distinct (ticker, date) pairs produce the same key), for both the local
file path and the flat object key. -/
theorem partition_key_det_inj (t1 t2 : String) (d1 d2 : CalendarDate)
    (ht1 : t1 ≠ "") (ht2 : t2 ≠ "") (h1 : d1.valid) (h2 : d2.valid) :
    ((t1, d1) = (t2, d2) →
      gcsKey t1 (formatDate d1) = gcsKey t2 (formatDate d2) ∧
      localPath t1 (formatDate d1) = localPath t2 (formatDate d2)) ∧
    (gcsKey t1 (formatDate d1) = gcsKey t2 (formatDate d2) → t1 = t2 ∧ d1 = d2) ∧
    (localPath t1 (formatDate d1) = localPath t2 (formatDate d2) → t1 = t2 ∧ d1 = d2) := by
  refine ⟨?_, ?_, ?_⟩
  · intro h
    obtain ⟨het, hed⟩ := Prod.mk.injEq .. ▸ h
    subst het; subst hed; exact ⟨rfl, rfl⟩
  · intro h
    obtain ⟨het, hfd⟩ := gcsKey_inj (formatDate_length d1) (formatDate_length d2) h
    exact ⟨het, formatDate_inj h1 h2 hfd⟩
  · intro h
    obtain ⟨het, hfd⟩ := localPath_inj (formatDate_length d1) (formatDate_length d2) h
    exact ⟨het, formatDate_inj h1 h2 hfd⟩

/-- Witness for C4 at concrete inputs. -/
theorem partition_key_det_inj_witness :
    (("RELIANCE.NS", (⟨2024, 1, 2⟩ : CalendarDate)) = (("TCS.NS", (⟨2024, 1, 3⟩ : CalendarDate))) →
      gcsKey "RELIANCE.NS" (formatDate ⟨2024, 1, 2⟩) = gcsKey "TCS.NS" (formatDate ⟨2024, 1, 3⟩) ∧
      localPath "RELIANCE.NS" (formatDate ⟨2024, 1, 2⟩) = localPath "TCS.NS" (formatDate ⟨2024, 1, 3⟩)) ∧
    (gcsKey "RELIANCE.NS" (formatDate ⟨2024, 1, 2⟩) = gcsKey "TCS.NS" (formatDate ⟨2024, 1, 3⟩) →
      "RELIANCE.NS" = "TCS.NS" ∧ (⟨2024, 1, 2⟩ : CalendarDate) = ⟨2024, 1, 3⟩) ∧
    (localPath "RELIANCE.NS" (formatDate ⟨2024, 1, 2⟩) = localPath "TCS.NS" (formatDate ⟨2024, 1, 3⟩) →
      "RELIANCE.NS" = "TCS.NS" ∧ (⟨2024, 1, 2⟩ : CalendarDate) = ⟨2024, 1, 3⟩) :=
  partition_key_det_inj "RELIANCE.NS" "TCS.NS" ⟨2024, 1, 2⟩ ⟨2024, 1, 3⟩
    (by decide) (by decide) (by decide) (by decide)

/-- Claim C5: the partition key has the exact form
`ticker=<TICKER>/date=<YYYY-MM-DD>`: realized locally as the file path
`stock_data_lake/ticker=<TICKER>/date=<YYYY-MM-DD>.csv` and on the object
store as the flat object key `ticker=<TICKER>/date=<YYYY-MM-DD>.csv`, with
the date rendered as four-digit year, two-digit month, two-digit day. -/
theorem partition_key_form (t : String) (d : CalendarDate) :
    gcsKey t (formatDate d) =
      "ticker=" ++ t ++ "/date=" ++ formatDate d ++ ".csv" ∧
    localPath t (formatDate d) =
      "stock_data_lake" ++ "/" ++ ("ticker=" ++ t ++ "/date=" ++ formatDate d ++ ".csv") ∧
    localPath t (formatDate d) = LOCAL_DATA_LAKE_FOLDER ++ "/" ++ gcsKey t (formatDate d) ∧
    formatDate d = pad4 d.year ++ "-" ++ pad2 d.month ++ "-" ++ pad2 d.day := by
  refine ⟨rfl, ?_, localPath_eq_folder_gcsKey t (formatDate d), rfl⟩
  apply strExt
  simp [localPath, LOCAL_DATA_LAKE_FOLDER, strData_append, List.append_assoc]

-- Store lemmas ---------------------------------------------------------------

theorem countKey_cons (p : String × String) (σ : Store) (k : String) :
    countKey (p :: σ) k = (if p.1 = k then 1 else 0) + countKey σ k := by
  by_cases h : p.1 = k <;> simp [countKey, List.filter_cons, h] <;> omega

theorem countKey_eq_zero {σ : Store} {k : String} (h : k ∉ σ.map Prod.fst) :
    countKey σ k = 0 := by
  induction σ with
  | nil => rfl
  | cons p σ ih =>
    simp only [List.map_cons, List.mem_cons, not_or] at h
    obtain ⟨h1, h2⟩ := h
    rw [countKey_cons, if_neg (fun he => h1 he.symm), ih h2]

theorem lookup_writeStore_self (σ : Store) (k v : String) :
    lookupStore (writeStore σ k v) k = some v := by
  induction σ with
  | nil => simp [writeStore, lookupStore]
  | cons p σ ih =>
    by_cases h : p.1 = k
    · simp [writeStore, h, lookupStore]
    · simp [writeStore, h, lookupStore, ih]

theorem mem_map_fst_writeStore {σ : Store} {k v a : String}
    (h : a ∈ (writeStore σ k v).map Prod.fst) : a ∈ σ.map Prod.fst ∨ a = k := by
  induction σ with
  | nil =>
    simp only [writeStore, List.map_cons, List.map_nil, List.mem_singleton] at h
    right; exact h
  | cons p σ ih =>
    by_cases hp : p.1 = k
    · rw [show writeStore (p :: σ) k v = (k, v) :: σ from by simp [writeStore, hp]] at h
      simp only [List.map_cons, List.mem_cons] at h
      rcases h with h | h
      · right; exact h
      · left; simp only [List.map_cons, List.mem_cons]; right; exact h
    · rw [show writeStore (p :: σ) k v = p :: writeStore σ k v from by simp [writeStore, hp]] at h
      simp only [List.map_cons, List.mem_cons] at h
      rcases h with h | h
      · left; simp only [List.map_cons, List.mem_cons]; left; exact h
      · rcases ih h with h' | h'
        · left; simp only [List.map_cons, List.mem_cons]; right; exact h'
        · right; exact h'

theorem wf_writeStore {σ : Store} (k v : String) (h : wfStore σ) :
    wfStore (writeStore σ k v) := by
  induction σ with
  | nil => simp [writeStore, wfStore]
  | cons p σ ih =>
    simp only [wfStore, List.map_cons, List.nodup_cons] at h
    obtain ⟨h1, h2⟩ := h
    by_cases hp : p.1 = k
    · simp only [writeStore, hp, if_pos]
      simp only [wfStore, List.map_cons, List.nodup_cons]
      exact ⟨hp ▸ h1, h2⟩
    · simp only [writeStore, if_neg hp]
      simp only [wfStore, List.map_cons, List.nodup_cons]
      refine ⟨?_, ih h2⟩
      intro hmem
      rcases mem_map_fst_writeStore hmem with h' | h'
      · exact h1 h'
      · exact hp h'

theorem countKey_writeStore {σ : Store} (k v : String) (h : wfStore σ) :
    countKey (writeStore σ k v) k = 1 := by
  induction σ with
  | nil => simp [writeStore, countKey, List.filter]
  | cons p σ ih =>
    simp only [wfStore, List.map_cons, List.nodup_cons] at h
    obtain ⟨h1, h2⟩ := h
    by_cases hp : p.1 = k
    · rw [show writeStore (p :: σ) k v = (k, v) :: σ from by simp [writeStore, hp]]
      rw [countKey_cons, if_pos rfl, countKey_eq_zero (hp ▸ h1)]
    · rw [show writeStore (p :: σ) k v = p :: writeStore σ k v from by simp [writeStore, hp]]
      rw [countKey_cons, if_neg hp, ih h2]

/-- Claim C7: writing the same (ticker, date) partition twice via either
backend (the backend-selected key `dateKey`) leaves exactly one artifact
at that key, and its content is exactly the second write's content
(last-write-wins overwrite; no append, no merge). -/
theorem partition_overwrite (tgt t : String) (d : CalendarDate) (r1 r2 : PriceRow)
    (σ : Store) (hwf : wfStore σ) :
    countKey (writeStore (writeStore σ (dateKey tgt t d) (serializeRow r1 t))
        (dateKey tgt t d) (serializeRow r2 t)) (dateKey tgt t d) = 1 ∧
    lookupStore (writeStore (writeStore σ (dateKey tgt t d) (serializeRow r1 t))
        (dateKey tgt t d) (serializeRow r2 t)) (dateKey tgt t d) =
      some (serializeRow r2 t) :=
  ⟨countKey_writeStore _ _ (wf_writeStore _ _ hwf), lookup_writeStore_self _ _ _⟩

/-- Witness for C7 at concrete inputs (local backend, empty store). -/
theorem partition_overwrite_witness :
    countKey (writeStore (writeStore [] (dateKey "local" "TEST.NS" exDate1)
        (serializeRow exRow1 "TEST.NS"))
        (dateKey "local" "TEST.NS" exDate1) (serializeRow exRow2 "TEST.NS"))
      (dateKey "local" "TEST.NS" exDate1) = 1 ∧
    lookupStore (writeStore (writeStore [] (dateKey "local" "TEST.NS" exDate1)
        (serializeRow exRow1 "TEST.NS"))
        (dateKey "local" "TEST.NS" exDate1) (serializeRow exRow2 "TEST.NS"))
      (dateKey "local" "TEST.NS" exDate1) = some (serializeRow exRow2 "TEST.NS") :=
  partition_overwrite "local" "TEST.NS" exDate1 exRow1 exRow2 []
    (by simp [wfStore])

-- Partition content (C6) -----------------------------------------------------

theorem mem_writeStore {σ : Store} {k v : String} {p : String × String}
    (h : p ∈ writeStore σ k v) : p ∈ σ ∨ p = (k, v) := by
  induction σ with
  | nil =>
    simp only [writeStore, List.mem_singleton] at h
    right; exact h
  | cons q σ ih =>
    by_cases hq : q.1 = k
    · rw [show writeStore (q :: σ) k v = (k, v) :: σ from by simp [writeStore, hq]] at h
      simp only [List.mem_cons] at h
      rcases h with h | h
      · right; exact h
      · left; simp only [List.mem_cons]; right; exact h
    · rw [show writeStore (q :: σ) k v = q :: writeStore σ k v from by simp [writeStore, hq]] at h
      simp only [List.mem_cons] at h
      rcases h with h | h
      · left; simp only [List.mem_cons]; left; exact h
      · rcases ih h with h' | h'
        · left; simp only [List.mem_cons]; right; exact h'
        · right; exact h'

/-- Claim C6: every artifact produced by a per-row write of either backend
has content `serializeRow row ticker`: a serialized header line plus
exactly one data line, where the data line re-embeds the ticker and the
formatted date as explicit columns and the header names the `Date` and
`Ticker` columns (so each partition file is self-describing). -/
theorem partition_content (tgt t : String) (hb ok : Bool) (r : PriceRow) (σ σ' : Store)
    (evs : List Event) (hstep : writeRowStep tgt hb ok t r σ = some (σ', evs)) :
    (∀ p ∈ σ', p ∈ σ ∨ p.2 = serializeRow r t) ∧
    serializeRowLines r t = [csvHeader, csvDataRow r t] ∧
    (serializeRowLines r t).length = 2 ∧
    serializeRow r t = csvHeader ++ "\n" ++ csvDataRow r t ++ "\n" ∧
    (∃ a, csvDataRow r t = a ++ t) ∧
    (∃ b, csvDataRow r t = formatDate r.date ++ b) ∧
    (∃ a, csvHeader = a ++ "Ticker") ∧
    (∃ b, csvHeader = "Date" ++ b) := by
  refine ⟨?_, rfl, rfl, rfl, ⟨_, rfl⟩, ?_, ⟨"Date,Open,High,Low,Close,Volume,", rfl⟩,
    ⟨",Open,High,Low,Close,Volume,Ticker", rfl⟩⟩
  · intro p hp
    unfold writeRowStep at hstep
    by_cases h1 : tgt = "local"
    · rw [if_pos h1] at hstep
      cases ok with
      | false => simp at hstep
      | true =>
        simp only [if_pos] at hstep
        obtain ⟨hσ, _⟩ := Prod.mk.injEq .. ▸ (Option.some.injEq .. ▸ hstep)
        subst hσ
        rcases mem_writeStore hp with h | h
        · left; exact h
        · right; rw [h]
    · rw [if_neg h1] at hstep
      by_cases h2 : tgt = "gcp" ∧ hb = true
      · rw [if_pos h2] at hstep
        cases ok with
        | false => simp at hstep
        | true =>
          simp only [if_pos] at hstep
          obtain ⟨hσ, _⟩ := Prod.mk.injEq .. ▸ (Option.some.injEq .. ▸ hstep)
          subst hσ
          rcases mem_writeStore hp with h | h
          · left; exact h
          · right; rw [h]
      · rw [if_neg h2] at hstep
        obtain ⟨hσ, _⟩ := Prod.mk.injEq .. ▸ (Option.some.injEq .. ▸ hstep)
        subst hσ
        left; exact hp
  · refine ⟨"," ++ toString r.open_ ++ "," ++ toString r.high ++ "," ++ toString r.low ++
      "," ++ toString r.close ++ "," ++ toString r.volume ++ "," ++ t, ?_⟩
    apply strExt
    simp [csvDataRow, strData_append, List.append_assoc]

/-- Witness for C6 at concrete inputs (local backend, empty store). -/
theorem partition_content_witness :
    (∀ p ∈ writeStore ([] : Store) (localPath "TEST.NS" (formatDate exDate1))
        (serializeRow exRow1 "TEST.NS"),
      p ∈ ([] : Store) ∨ p.2 = serializeRow exRow1 "TEST.NS") ∧
    serializeRowLines exRow1 "TEST.NS" = [csvHeader, csvDataRow exRow1 "TEST.NS"] ∧
    (serializeRowLines exRow1 "TEST.NS").length = 2 ∧
    serializeRow exRow1 "TEST.NS" = csvHeader ++ "\n" ++ csvDataRow exRow1 "TEST.NS" ++ "\n" ∧
    (∃ a, csvDataRow exRow1 "TEST.NS" = a ++ "TEST.NS") ∧
    (∃ b, csvDataRow exRow1 "TEST.NS" = formatDate exRow1.date ++ b) ∧
    (∃ a, csvHeader = a ++ "Ticker") ∧
    (∃ b, csvHeader = "Date" ++ b) :=
  partition_content "local" "TEST.NS" false true exRow1 []
    (writeStore [] (localPath "TEST.NS" (formatDate exDate1)) (serializeRow exRow1 "TEST.NS"))
    [Event.writeEv (localPath "TEST.NS" (formatDate exDate1))] rfl

-- Loop machinery -------------------------------------------------------------

theorem writeStore_fresh {σ : Store} {k : String} (v : String)
    (h : k ∉ σ.map Prod.fst) : writeStore σ k v = σ ++ [(k, v)] := by
  induction σ with
  | nil => rfl
  | cons p σ ih =>
    simp only [List.map_cons, List.mem_cons, not_or] at h
    obtain ⟨h1, h2⟩ := h
    have hp : ¬ p.1 = k := fun he => h1 he.symm
    rw [show writeStore (p :: σ) k v = p :: writeStore σ k v from by simp [writeStore, hp],
        ih h2, List.cons_append]

theorem writeRowStep_ok (tgt : String) (hb : Bool) (t : String) (r : PriceRow) (σ : Store)
    (hw : doesWrite tgt hb = true) :
    writeRowStep tgt hb true t r σ =
      some (writeStore σ (rowKey tgt t r) (serializeRow r t),
            [Event.writeEv (rowKey tgt t r)]) := by
  have hw' : tgt = "local" ∨ (tgt = "gcp" ∧ hb = true) := by
    simpa [doesWrite] using hw
  rcases hw' with h | ⟨h1, h2⟩
  · simp [writeRowStep, h, rowKey, dateKey]
  · have hnl : tgt ≠ "local" := by rw [h1]; decide
    simp [writeRowStep, hnl, h1, h2, rowKey, dateKey]

theorem writeRowStep_err (tgt : String) (hb : Bool) (t : String) (r : PriceRow) (σ : Store)
    (hw : doesWrite tgt hb = true) :
    writeRowStep tgt hb false t r σ = none := by
  have hw' : tgt = "local" ∨ (tgt = "gcp" ∧ hb = true) := by
    simpa [doesWrite] using hw
  rcases hw' with h | ⟨h1, h2⟩
  · simp [writeRowStep, h]
  · have hnl : tgt ≠ "local" := by rw [h1]; decide
    simp [writeRowStep, hnl, h1, h2]

theorem writeRowStep_skip (tgt : String) (hb ok : Bool) (t : String) (r : PriceRow) (σ : Store)
    (hw : doesWrite tgt hb = false) :
    writeRowStep tgt hb ok t r σ = some (σ, []) := by
  have h1 : ¬ tgt = "local" := by intro h; simp [doesWrite, h] at hw
  have h2 : ¬ (tgt = "gcp" ∧ hb = true) := by
    intro hc; obtain ⟨ha, hbt⟩ := hc; simp [doesWrite, ha, hbt] at hw
  simp [writeRowStep, h1, h2]

theorem ingestLoop_all_ok (tgt : String) (hb : Bool) (wOk : Nat → Bool) (t : String)
    (hw : doesWrite tgt hb = true) :
    ∀ (rows : List PriceRow) (i0 : Nat) (σ : Store),
      (∀ j, j < rows.length → wOk (i0 + j) = true) →
      (∀ r ∈ rows, rowKey tgt t r ∉ σ.map Prod.fst) →
      (rows.map (rowKey tgt t)).Nodup →
      ingestLoop tgt hb wOk t rows i0 σ =
        (σ ++ rows.map (fun r => (rowKey tgt t r, serializeRow r t)),
         rows.map (fun r => Event.writeEv (rowKey tgt t r)), true) := by
  intro rows
  induction rows with
  | nil => intro i0 σ _ _ _; simp [ingestLoop]
  | cons r rs ih =>
    intro i0 σ hok hfresh hnd
    have hok0 : wOk i0 = true := by simpa using hok 0 (by simp)
    have hstep : writeRowStep tgt hb (wOk i0) t r σ =
        some (writeStore σ (rowKey tgt t r) (serializeRow r t),
              [Event.writeEv (rowKey tgt t r)]) := by
      rw [hok0]; exact writeRowStep_ok tgt hb t r σ hw
    have hfr := hfresh r (List.mem_cons_self r rs)
    rw [writeStore_fresh (serializeRow r t) hfr] at hstep
    simp only [List.map_cons, List.nodup_cons] at hnd
    obtain ⟨hnd1, hnd2⟩ := hnd
    have hrec := ih (i0 + 1) (σ ++ [(rowKey tgt t r, serializeRow r t)])
      (by
        intro j hj
        have := hok (j + 1) (by simpa using Nat.succ_lt_succ hj)
        rw [show i0 + 1 + j = i0 + (j + 1) from by omega]
        exact this)
      (by
        intro r' hr'
        simp only [List.map_append, List.map_cons, List.map_nil, List.mem_append,
          List.mem_singleton, not_or]
        refine ⟨hfresh r' (List.mem_cons_of_mem r hr'), ?_⟩
        intro he
        exact hnd1 (he ▸ List.mem_map_of_mem (rowKey tgt t) hr'))
      hnd2
    simp only [ingestLoop, hstep, hrec]
    simp [List.append_assoc]

theorem ingestLoop_fail_at (tgt : String) (hb : Bool) (wOk : Nat → Bool) (t : String)
    (hw : doesWrite tgt hb = true) :
    ∀ (k : Nat) (rows : List PriceRow) (i0 : Nat) (σ : Store),
      k < rows.length →
      (∀ j, j < k → wOk (i0 + j) = true) →
      wOk (i0 + k) = false →
      (∀ r ∈ rows.take k, rowKey tgt t r ∉ σ.map Prod.fst) →
      ((rows.take k).map (rowKey tgt t)).Nodup →
      ingestLoop tgt hb wOk t rows i0 σ =
        (σ ++ (rows.take k).map (fun r => (rowKey tgt t r, serializeRow r t)),
         (rows.take k).map (fun r => Event.writeEv (rowKey tgt t r)), false) := by
  intro k
  induction k with
  | zero =>
    intro rows i0 σ hlt hok hfail hfresh hnd
    cases rows with
    | nil => simp at hlt
    | cons r rs =>
      have hstep : writeRowStep tgt hb (wOk i0) t r σ = none := by
        rw [show wOk i0 = false from by simpa using hfail]
        exact writeRowStep_err tgt hb t r σ hw
      simp [ingestLoop, hstep]
  | succ k ih =>
    intro rows i0 σ hlt hok hfail hfresh hnd
    cases rows with
    | nil => simp at hlt
    | cons r rs =>
      have hok0 : wOk i0 = true := by simpa using hok 0 (Nat.succ_pos k)
      have hstep : writeRowStep tgt hb (wOk i0) t r σ =
          some (writeStore σ (rowKey tgt t r) (serializeRow r t),
                [Event.writeEv (rowKey tgt t r)]) := by
        rw [hok0]; exact writeRowStep_ok tgt hb t r σ hw
      have hfr := hfresh r (by simp [List.take_succ_cons])
      rw [writeStore_fresh (serializeRow r t) hfr] at hstep
      simp only [List.take_succ_cons, List.map_cons, List.nodup_cons] at hnd
      obtain ⟨hnd1, hnd2⟩ := hnd
      have hrec := ih rs (i0 + 1) (σ ++ [(rowKey tgt t r, serializeRow r t)])
        (Nat.lt_of_succ_lt_succ hlt)
        (by
          intro j hj
          have := hok (j + 1) (Nat.succ_lt_succ hj)
          rw [show i0 + 1 + j = i0 + (j + 1) from by omega]
          exact this)
        (by rw [show i0 + 1 + k = i0 + (k + 1) from by omega]; exact hfail)
        (by
          intro r' hr'
          simp only [List.map_append, List.map_cons, List.map_nil, List.mem_append,
            List.mem_singleton, not_or]
          refine ⟨hfresh r' (by simp [List.take_succ_cons, List.mem_cons]; right; exact hr'), ?_⟩
          intro he
          exact hnd1 (he ▸ List.mem_map_of_mem (rowKey tgt t) hr'))
        hnd2
      simp only [ingestLoop, hstep, hrec]
      simp [List.take_succ_cons, List.append_assoc]

theorem ingestLoop_no_write (tgt : String) (hb : Bool) (wOk : Nat → Bool) (t : String)
    (hw : doesWrite tgt hb = false) :
    ∀ (rows : List PriceRow) (i0 : Nat) (σ : Store),
      ingestLoop tgt hb wOk t rows i0 σ = (σ, [], true) := by
  intro rows
  induction rows with
  | nil => intro i0 σ; simp [ingestLoop]
  | cons r rs ih =>
    intro i0 σ
    simp only [ingestLoop, writeRowStep_skip tgt hb (wOk i0) t r σ hw, ih (i0 + 1) σ]
    simp

-- Ingestion-level results ----------------------------------------------------

theorem dateKey_inj (tgt t : String) {d1 d2 : CalendarDate}
    (h1 : d1.valid) (h2 : d2.valid)
    (h : dateKey tgt t d1 = dateKey tgt t d2) : d1 = d2 := by
  unfold dateKey at h
  by_cases hl : tgt = "local"
  · rw [if_pos hl, if_pos hl] at h
    exact formatDate_inj h1 h2 (localPath_inj (formatDate_length d1) (formatDate_length d2) h).2
  · rw [if_neg hl, if_neg hl] at h
    exact formatDate_inj h1 h2 (gcsKey_inj (formatDate_length d1) (formatDate_length d2) h).2

theorem rowKeys_nodup (tgt t : String) (rows : List PriceRow)
    (hval : ∀ r ∈ rows, r.date.valid)
    (hdist : (rows.map PriceRow.date).Nodup) :
    (rows.map (rowKey tgt t)).Nodup := by
  have hfun : rows.map (rowKey tgt t) = (rows.map PriceRow.date).map (dateKey tgt t) := by
    rw [List.map_map]; rfl
  rw [hfun]
  apply List.Nodup.map_on ?_ hdist
  intro x hx y hy he
  obtain ⟨rx, hrx, hrex⟩ := List.mem_map.1 hx
  obtain ⟨ry, hry, hrey⟩ := List.mem_map.1 hy
  exact dateKey_inj tgt t (hrex ▸ hval rx hrx) (hrey ▸ hval ry hry) he

theorem countWriteEv_append (a b : List Event) :
    countWriteEv (a ++ b) = countWriteEv a + countWriteEv b := by
  simp [countWriteEv, List.filter_append]

theorem countWriteEv_map_writeEv (f : PriceRow → String) (rows : List PriceRow) :
    countWriteEv (rows.map fun r => Event.writeEv (f r)) = rows.length := by
  induction rows with
  | nil => rfl
  | cons r rs ih =>
    simp only [List.map_cons, countWriteEv, List.filter_cons, isWriteEv, if_pos,
      List.length_cons] at ih ⊢
    omega

theorem isEmpty_false_of_ne_nil {rows : List PriceRow} (h : rows ≠ []) :
    rows.isEmpty = false := by
  cases rows with
  | nil => exact absurd rfl h
  | cons r rs => rfl

/-- Claim C2: when the data source returns an empty series, ingest returns no
series (`none`, after printing the no-data error naming the ticker), the
store is unchanged, and no partition write happens. -/
theorem fetch_empty (t p tgt : String) (hb : Bool) (wOk : Nat → Bool) (σ : Store) :
    fetchAndStoreData t p tgt hb (Except.ok []) wOk σ =
      (none, σ, [Event.printEv (ingestHeaderMsg t tgt), Event.fetchEv t p,
                 Event.printEv (noDataMsg t)]) ∧
    countWriteEv (fetchAndStoreData t p tgt hb (Except.ok []) wOk σ).2.2 = 0 ∧
    (fetchAndStoreData t p tgt hb (Except.ok []) wOk σ).2.1 = σ := by
  have h : fetchAndStoreData t p tgt hb (Except.ok []) wOk σ =
      (none, σ, [Event.printEv (ingestHeaderMsg t tgt), Event.fetchEv t p,
                 Event.printEv (noDataMsg t)]) := by
    simp [fetchAndStoreData]
  refine ⟨h, ?_, ?_⟩
  · rw [h]; simp [countWriteEv, List.filter_cons, isWriteEv]
  · rw [h]

/-- Claim C9: when the single data-source call raises a transport/API error,
ingest catches it (no unhandled propagation in the model: the function is
total and returns a value), returns no series, performs exactly one fetch
attempt and no write, leaves the store unchanged, and prints a
human-readable message carrying the error text. -/
theorem fetch_source_error (t p tgt : String) (hb : Bool) (e : String)
    (wOk : Nat → Bool) (σ : Store) :
    fetchAndStoreData t p tgt hb (Except.error e) wOk σ =
      (none, σ, [Event.printEv (ingestHeaderMsg t tgt), Event.fetchEv t p,
                 Event.printEv (fetchErrMsg e)]) ∧
    countFetchEv (fetchAndStoreData t p tgt hb (Except.error e) wOk σ).2.2 = 1 ∧
    countWriteEv (fetchAndStoreData t p tgt hb (Except.error e) wOk σ).2.2 = 0 ∧
    Event.printEv (fetchErrMsg e) ∈ (fetchAndStoreData t p tgt hb (Except.error e) wOk σ).2.2 ∧
    (fetchAndStoreData t p tgt hb (Except.error e) wOk σ).2.1 = σ := by
  have h : fetchAndStoreData t p tgt hb (Except.error e) wOk σ =
      (none, σ, [Event.printEv (ingestHeaderMsg t tgt), Event.fetchEv t p,
                 Event.printEv (fetchErrMsg e)]) := by
    simp [fetchAndStoreData]
  refine ⟨h, ?_, ?_, ?_, ?_⟩
  · rw [h]; simp [countFetchEv, List.filter_cons, isFetchEv]
  · rw [h]; simp [countWriteEv, List.filter_cons, isWriteEv]
  · rw [h]; simp
  · rw [h]

/-- Claim C10: with storage target gcp but no bucket handle, or any storage
target other than local and gcp, a non-empty fetched series leads to no
write at all, no error signal, an ingestion-complete report, and the full
series being returned. -/
theorem fetch_no_backend (t p tgt : String) (hb : Bool) (rows : List PriceRow)
    (wOk : Nat → Bool) (σ : Store) (hne : rows ≠ [])
    (hcase : (tgt = "gcp" ∧ hb = false) ∨ (tgt ≠ "local" ∧ tgt ≠ "gcp")) :
    fetchAndStoreData t p tgt hb (Except.ok rows) wOk σ =
      (some rows, σ,
       [Event.printEv (ingestHeaderMsg t tgt), Event.fetchEv t p,
        Event.printEv (fetchedMsg rows.length), Event.printEv completeMsg]) ∧
    countWriteEv (fetchAndStoreData t p tgt hb (Except.ok rows) wOk σ).2.2 = 0 := by
  have hw : doesWrite tgt hb = false := by
    rcases hcase with ⟨h1, h2⟩ | ⟨h1, h2⟩
    · subst h1; subst h2; rfl
    · simp [doesWrite, h1, h2]
  have hloop := ingestLoop_no_write tgt hb wOk t hw rows 0 σ
  have hie := isEmpty_false_of_ne_nil hne
  have h : fetchAndStoreData t p tgt hb (Except.ok rows) wOk σ =
      (some rows, σ,
       [Event.printEv (ingestHeaderMsg t tgt), Event.fetchEv t p,
        Event.printEv (fetchedMsg rows.length), Event.printEv completeMsg]) := by
    simp [fetchAndStoreData, hie, hloop]
  refine ⟨h, ?_⟩
  rw [h]
  simp [countWriteEv, List.filter_cons, isWriteEv]

/-- Witness for C10 at concrete inputs (gcp target, missing bucket handle). -/
theorem fetch_no_backend_witness :
    fetchAndStoreData "TEST.NS" "1mo" "gcp" false (Except.ok [exRow1]) (fun _ => true) [] =
      (some [exRow1], [],
       [Event.printEv (ingestHeaderMsg "TEST.NS" "gcp"), Event.fetchEv "TEST.NS" "1mo",
        Event.printEv (fetchedMsg [exRow1].length), Event.printEv completeMsg]) ∧
    countWriteEv (fetchAndStoreData "TEST.NS" "1mo" "gcp" false (Except.ok [exRow1])
        (fun _ => true) []).2.2 = 0 :=
  fetch_no_backend "TEST.NS" "1mo" "gcp" false [exRow1] (fun _ => true) []
    (by simp) (Or.inl ⟨rfl, rfl⟩)

/-- Claim C8: for a non-empty fetched series with pairwise-distinct (valid)
row dates, a run in which every per-row write succeeds performs exactly one
write per row — the final store holds exactly one artifact per (ticker,
date) pair, N in total, and N write events occur — and ingest returns the
full original series, not a subset. -/
theorem fetch_all_ok (t p tgt : String) (hb : Bool) (rows : List PriceRow)
    (wOk : Nat → Bool)
    (hne : rows ≠ [])
    (hw : doesWrite tgt hb = true)
    (hok : ∀ j, j < rows.length → wOk j = true)
    (hval : ∀ r ∈ rows, r.date.valid)
    (hdist : (rows.map PriceRow.date).Nodup) :
    (fetchAndStoreData t p tgt hb (Except.ok rows) wOk []).1 = some rows ∧
    (fetchAndStoreData t p tgt hb (Except.ok rows) wOk []).2.1 =
      rows.map (fun r => (rowKey tgt t r, serializeRow r t)) ∧
    (fetchAndStoreData t p tgt hb (Except.ok rows) wOk []).2.1.length = rows.length ∧
    countWriteEv (fetchAndStoreData t p tgt hb (Except.ok rows) wOk []).2.2 = rows.length := by
  have hnd := rowKeys_nodup tgt t rows hval hdist
  have hloop := ingestLoop_all_ok tgt hb wOk t hw rows 0 []
    (by intro j hj; rw [Nat.zero_add]; exact hok j hj)
    (by intro r hr; simp)
    hnd
  have hie := isEmpty_false_of_ne_nil hne
  have h : fetchAndStoreData t p tgt hb (Except.ok rows) wOk [] =
      (some rows, rows.map (fun r => (rowKey tgt t r, serializeRow r t)),
       [Event.printEv (ingestHeaderMsg t tgt), Event.fetchEv t p,
        Event.printEv (fetchedMsg rows.length)] ++
         rows.map (fun r => Event.writeEv (rowKey tgt t r)) ++
         [Event.printEv completeMsg]) := by
    simp [fetchAndStoreData, hie, hloop]
  refine ⟨?_, ?_, ?_, ?_⟩
  · rw [h]
  · rw [h]
  · rw [h]; simp
  · rw [h, countWriteEv_append, countWriteEv_append, countWriteEv_map_writeEv]
    simp [countWriteEv, List.filter_cons, isWriteEv]

/-- Witness for C8 at concrete inputs (local backend, two rows). -/
theorem fetch_all_ok_witness :
    (fetchAndStoreData "TEST.NS" "1mo" "local" false (Except.ok [exRow1, exRow2])
        (fun _ => true) []).1 = some [exRow1, exRow2] ∧
    (fetchAndStoreData "TEST.NS" "1mo" "local" false (Except.ok [exRow1, exRow2])
        (fun _ => true) []).2.1 =
      [exRow1, exRow2].map (fun r => (rowKey "local" "TEST.NS" r, serializeRow r "TEST.NS")) ∧
    (fetchAndStoreData "TEST.NS" "1mo" "local" false (Except.ok [exRow1, exRow2])
        (fun _ => true) []).2.1.length = [exRow1, exRow2].length ∧
    countWriteEv (fetchAndStoreData "TEST.NS" "1mo" "local" false (Except.ok [exRow1, exRow2])
        (fun _ => true) []).2.2 = [exRow1, exRow2].length :=
  fetch_all_ok "TEST.NS" "1mo" "local" false [exRow1, exRow2] (fun _ => true)
    (by simp) rfl (fun j _ => rfl) (by decide) (by decide)

-- Write-failure behaviour (C1) ----------------------------------------------

/-- Counterexample to claim C1 as stated: two fetched rows, the first row's
partition write fails (simulated IO failure).  The claim predicts that the
run continues, the remaining row is still written (exactly N-1 = 1
artifacts), and ingest returns the full 2-row series.  The code instead
aborts: zero artifacts exist and `None` is returned. -/
theorem ingest_write_failure_cex :
    ¬ ((fetchAndStoreData "TEST.NS" "1mo" "local" false (Except.ok [exRow1, exRow2])
          (fun i => decide (0 < i)) []).1 = some [exRow1, exRow2] ∧
       (fetchAndStoreData "TEST.NS" "1mo" "local" false (Except.ok [exRow1, exRow2])
          (fun i => decide (0 < i)) []).2.1.length = 1) := by
  decide

/-- Claim C1 (amended): a failing per-row write ABORTS the run.  If the
write of row k (0-based) fails while all earlier writes succeed, then —
starting from an empty store, for pairwise-distinct valid row dates —
exactly the k rows before the failure are written (exactly k artifacts,
not N-1), the failing row and all later rows are NOT written, and
`fetch_and_store_data` returns `none` instead of the series: the write
exception is caught by the same `except` block that guards the fetch. -/
theorem ingest_write_failure_aborts (t p tgt : String) (hb : Bool)
    (rows : List PriceRow) (wOk : Nat → Bool) (k : Nat)
    (hw : doesWrite tgt hb = true)
    (hk : k < rows.length)
    (hbefore : ∀ j, j < k → wOk j = true)
    (hfail : wOk k = false)
    (hval : ∀ r ∈ rows, r.date.valid)
    (hdist : (rows.map PriceRow.date).Nodup) :
    (fetchAndStoreData t p tgt hb (Except.ok rows) wOk []).1 = none ∧
    (fetchAndStoreData t p tgt hb (Except.ok rows) wOk []).2.1 =
      (rows.take k).map (fun r => (rowKey tgt t r, serializeRow r t)) ∧
    (fetchAndStoreData t p tgt hb (Except.ok rows) wOk []).2.1.length = k := by
  have hnd := rowKeys_nodup tgt t rows hval hdist
  have hndtake : ((rows.take k).map (rowKey tgt t)).Nodup := by
    rw [List.map_take]
    exact List.Nodup.sublist (List.take_sublist _ _) hnd
  have hloop := ingestLoop_fail_at tgt hb wOk t hw k rows 0 []
    hk
    (by intro j hj; rw [Nat.zero_add]; exact hbefore j hj)
    (by rw [Nat.zero_add]; exact hfail)
    (by intro r hr; simp)
    hndtake
  have hie : rows.isEmpty = false := by
    apply isEmpty_false_of_ne_nil
    intro he
    rw [he] at hk
    simp at hk
  have h : fetchAndStoreData t p tgt hb (Except.ok rows) wOk [] =
      (none, (rows.take k).map (fun r => (rowKey tgt t r, serializeRow r t)),
       [Event.printEv (ingestHeaderMsg t tgt), Event.fetchEv t p,
        Event.printEv (fetchedMsg rows.length)] ++
         (rows.take k).map (fun r => Event.writeEv (rowKey tgt t r)) ++
         [Event.printEv (fetchErrMsg "write failure")]) := by
    simp [fetchAndStoreData, hie, hloop]
  refine ⟨?_, ?_, ?_⟩
  · rw [h]
  · rw [h]
  · rw [h]
    simp only [List.length_map, List.length_take]
    omega

/-- Witness for the amended C1 at concrete inputs: two rows, the second
row's write fails; exactly one artifact (the first row's) exists and the
result is `none`. -/
theorem ingest_write_failure_aborts_witness :
    (fetchAndStoreData "TEST.NS" "1mo" "local" false (Except.ok [exRow1, exRow2])
        (fun i => decide (i < 1)) []).1 = none ∧
    (fetchAndStoreData "TEST.NS" "1mo" "local" false (Except.ok [exRow1, exRow2])
        (fun i => decide (i < 1)) []).2.1 =
      ([exRow1, exRow2].take 1).map
        (fun r => (rowKey "local" "TEST.NS" r, serializeRow r "TEST.NS")) ∧
    (fetchAndStoreData "TEST.NS" "1mo" "local" false (Except.ok [exRow1, exRow2])
        (fun i => decide (i < 1)) []).2.1.length = 1 :=
  ingest_write_failure_aborts "TEST.NS" "1mo" "local" false [exRow1, exRow2]
    (fun i => decide (i < 1)) 1 (by decide) (by decide) (by decide) (by decide)
    (by decide) (by decide)

-- Placeholder-bucket guard (C3) ----------------------------------------------

/-- Claim C3: with the gcp storage target selected and the bucket name still
the documented placeholder value, `main` fails with the configuration
error before any data fetch and before any partition write is attempted:
the trace holds no fetch event and no write event, the store is unchanged,
and no series is produced. -/
theorem main_placeholder (pt t p bn : String) (bOk : Bool)
    (fr : Except String (List PriceRow)) (wOk : Nat → Bool) (σ : Store)
    (ht : t ≠ "") (hbn : bn = PLACEHOLDER_BUCKET) :
    mainRun "gcp" pt t p bn bOk fr wOk σ = (none, σ, [Event.printEv placeholderErrMsg]) ∧
    countFetchEv (mainRun "gcp" pt t p bn bOk fr wOk σ).2.2 = 0 ∧
    countWriteEv (mainRun "gcp" pt t p bn bOk fr wOk σ).2.2 = 0 ∧
    (mainRun "gcp" pt t p bn bOk fr wOk σ).1 = none ∧
    (mainRun "gcp" pt t p bn bOk fr wOk σ).2.1 = σ := by
  subst hbn
  have h : mainRun "gcp" pt t p PLACEHOLDER_BUCKET bOk fr wOk σ =
      (none, σ, [Event.printEv placeholderErrMsg]) := by
    simp [mainRun, ht]
  refine ⟨h, ?_, ?_, ?_, ?_⟩
  · rw [h]; simp [countFetchEv, List.filter_cons, isFetchEv]
  · rw [h]; simp [countWriteEv, List.filter_cons, isWriteEv]
  · rw [h]
  · rw [h]

/-- Witness for C3 at concrete inputs. -/
theorem main_placeholder_witness :
    mainRun "gcp" "local" "TEST.NS" "1mo" PLACEHOLDER_BUCKET true (Except.ok [exRow1])
        (fun _ => true) [] = (none, [], [Event.printEv placeholderErrMsg]) ∧
    countFetchEv (mainRun "gcp" "local" "TEST.NS" "1mo" PLACEHOLDER_BUCKET true
        (Except.ok [exRow1]) (fun _ => true) []).2.2 = 0 ∧
    countWriteEv (mainRun "gcp" "local" "TEST.NS" "1mo" PLACEHOLDER_BUCKET true
        (Except.ok [exRow1]) (fun _ => true) []).2.2 = 0 ∧
    (mainRun "gcp" "local" "TEST.NS" "1mo" PLACEHOLDER_BUCKET true
        (Except.ok [exRow1]) (fun _ => true) []).1 = none ∧
    (mainRun "gcp" "local" "TEST.NS" "1mo" PLACEHOLDER_BUCKET true
        (Except.ok [exRow1]) (fun _ => true) []).2.1 = [] :=
  main_placeholder "local" "TEST.NS" "1mo" PLACEHOLDER_BUCKET true (Except.ok [exRow1])
    (fun _ => true) [] (by decide) rfl
